import Mathlib

/-!
# Verification of `generate_stl_previews.py`

A shallow embedding of the STL preview generator (`src/generate_stl_previews.py`)
and proofs of the specified properties.

External collaborators (trimesh, matplotlib, PIL) are modelled as oracles:
a strategy's effectful steps (mesh load, render computation, image write) are
parameters of type `RunResult Unit` recording whether the step completed or
raised, and the per-file pipeline takes a `Strategy → Bool` oracle giving each
strategy's boolean outcome. The control flow around those oracles — the
try/except wrapper, the if/elif cascade, the counters, the skip-if-exists
gate, the destination-path computation and the batch loop — is translated
directly from the Python source.
-/

namespace STLPreview

/-! ## Python exception model

A raised Python object is a `BaseException`; `isException` records whether it
is also an instance of `Exception` (e.g. `ValueError`), as opposed to a
`BaseException` that is not an `Exception` (e.g. `KeyboardInterrupt`,
`SystemExit`).  `except Exception as e:` catches exactly the former. -/

structure PyErr where
  isException : Bool
  name : String
deriving DecidableEq, Repr

/-- Result of running a block of Python code: it either completes with a value
or raises. -/
inductive RunResult (α : Type) where
  | ok (a : α)
  | raised (e : PyErr)
deriving DecidableEq, Repr

/-- Sequencing of Python statements: a raise aborts the rest of the block. -/
def seqStep : RunResult Unit → RunResult Unit → RunResult Unit
  | RunResult.ok _, b => b
  | RunResult.raised e, _ => RunResult.raised e

/-- The body of each rendering strategy: load the mesh, do the render
computation, write the image — in that order, each step able to raise. -/
def strategyBody (load compute write : RunResult Unit) : RunResult Unit :=
  seqStep load (seqStep compute write)

/-- The `try: ...; return True / except Exception as e: ...; return False`
wrapper shared verbatim by all three strategies (lines 28–84, 88–130, 134–178
of the source): a completed body returns `True`; a raised `Exception` instance
is caught and turned into `False`; any other raised `BaseException`
propagates. -/
def tryStrategy (body : RunResult Unit) : RunResult Bool :=
  match body with
  | RunResult.ok _ => RunResult.ok true
  | RunResult.raised e =>
      if e.isException then RunResult.ok false else RunResult.raised e

/-- Embedding of `STLPreviewGenerator.generate_preview_matplotlib` with its effectful steps
as oracles (source lines 26–84). -/
def generate_preview_matplotlib (load compute write : RunResult Unit) :
    RunResult Bool :=
  tryStrategy (strategyBody load compute write)

/-- Embedding of `STLPreviewGenerator.generate_preview_wireframe` with its effectful steps
as oracles (source lines 86–130). -/
def generate_preview_wireframe (load compute write : RunResult Unit) :
    RunResult Bool :=
  tryStrategy (strategyBody load compute write)

/-- Embedding of `STLPreviewGenerator.generate_preview_simple` with its effectful steps as
oracles (source lines 132–178). -/
def generate_preview_simple (load compute write : RunResult Unit) :
    RunResult Bool :=
  tryStrategy (strategyBody load compute write)

/-! ## ProjectionMath (wireframe strategy, source lines 97–101)

```
proj_matrix = np.array([[1, 0, 0.5],
                        [0, 1, 0.5]])
vertices_2d = np.dot(vertices, proj_matrix.T)
```
Coordinates are modelled as rationals (0.5 is exact in binary floating point,
and the claims are about the algebraic form of the map). -/

/-- The fixed 2×3 oblique projection matrix, row by row. -/
def proj_matrix : (ℚ × ℚ × ℚ) × (ℚ × ℚ × ℚ) :=
  ((1, 0, 1/2), (0, 1, 1/2))

/-- One row of `np.dot(vertices, proj_matrix.T)`: the vertex dotted with each
row of the projection matrix. -/
def project (x y z : ℚ) : ℚ × ℚ :=
  (proj_matrix.1.1 * x + proj_matrix.1.2.1 * y + proj_matrix.1.2.2 * z,
   proj_matrix.2.1 * x + proj_matrix.2.2.1 * y + proj_matrix.2.2.2 * z)

/-- The array `vertices_2d`: the projection applied independently to every vertex. -/
def project_all (vertices : List (ℚ × ℚ × ℚ)) : List (ℚ × ℚ) :=
  vertices.map (fun v => project v.1 v.2.1 v.2.2)

/-! ## WireframeRender drawing (source lines 103–115)

A face is a triple of vertex indices; `vget` is NumPy indexing
`vertices_2d[i]` (out-of-range indexing raises in NumPy; we resolve it to a
default only to keep the drawing functions total — the claims quantify over
in-range indices). -/

/-- Look up a projected vertex by index. -/
def vget (vertices_2d : List (ℚ × ℚ)) (i : ℕ) : ℚ × ℚ :=
  vertices_2d.getD i (0, 0)

/-- The array `triangle_closed = np.vstack([triangle, triangle[0]])` for one face: the
three projected vertices followed by a repeat of the first. -/
def triangle_closed (vertices_2d : List (ℚ × ℚ)) (face : ℕ × ℕ × ℕ) :
    List (ℚ × ℚ) :=
  [vget vertices_2d face.1, vget vertices_2d face.2.1,
   vget vertices_2d face.2.2, vget vertices_2d face.1]

/-- The outline pass (`for face in mesh.faces:` — lines 104–108): one closed
polyline per face, in face order. -/
def wire_outlines (vertices_2d : List (ℚ × ℚ)) (faces : List (ℕ × ℕ × ℕ)) :
    List (List (ℚ × ℚ)) :=
  faces.map (triangle_closed vertices_2d)

/-- Python extended slicing `l[::5]`: the first element, then every fifth
element after it. -/
def sliceStep5 : List α → List α
  | [] => []
  | a :: rest => a :: sliceStep5 (rest.drop 4)
termination_by l => l.length
decreasing_by
  simp only [List.length_drop, List.length_cons]
  omega

/-- The fill pass (`for face in mesh.faces[::5]:` — lines 111–115): one
translucent polygon (the face's three projected vertices) per selected face. -/
def wire_fills (vertices_2d : List (ℚ × ℚ)) (faces : List (ℕ × ℕ × ℕ)) :
    List (List (ℚ × ℚ)) :=
  (sliceStep5 faces).map (fun face =>
    [vget vertices_2d face.1, vget vertices_2d face.2.1,
     vget vertices_2d face.2.2])

/-! ## BoundingBoxRender decorative gradient (source lines 149–161)

Pixel coordinates are PIL image coordinates: x grows rightward, y grows
downward, so the top edge of the inset rectangle is at y = margin.  Each
`draw.line` call contributes one short horizontal segment; the float alpha of
the fill colour is presentation-only and not modelled.  The rectangle is
`[margin, margin, w - margin, h - margin]` (line 151), so its corners are
(margin, margin), (w-margin, margin), (margin, h-margin), (w-margin, h-margin). -/

/-- A straight line segment between two pixel coordinates. -/
structure Seg where
  x1 : ℤ
  y1 : ℤ
  x2 : ℤ
  y2 : ℤ
deriving DecidableEq, Repr

/-- The fixed inset of the rectangle from the canvas edges (line 150). -/
def margin : ℤ := 50

/-- The segments drawn by the `for offset in range(30):` loop (lines 155–161),
in drawing order: for each offset, one segment starting at
`(margin+offset, margin-offset)` and one starting at
`(w-margin+offset, margin-offset)`. -/
def gradient_segments (w : ℤ) : List Seg :=
  (List.range 30).flatMap (fun o =>
    let offset : ℤ := o
    [⟨margin + offset, margin - offset, margin + offset + 1, margin - offset⟩,
     ⟨w - margin + offset, margin - offset, w - margin + offset + 1,
      margin - offset⟩])

/-- A point is "along" a corner when it lies within the gradient's own extent
(30 px, Chebyshev distance) of that corner. -/
def nearCorner (px py cx cy : ℤ) : Prop :=
  px - cx ≤ 30 ∧ cx - px ≤ 30 ∧ py - cy ≤ 30 ∧ cy - py ≤ 30

instance (px py cx cy : ℤ) : Decidable (nearCorner px py cx cy) := by
  unfold nearCorner; infer_instance

/-! ## PreviewPipeline and counters (source lines 19–24, 180–204)

The filesystem is modelled as the list of paths of existing files; a strategy
oracle `run : Strategy → Bool` gives each strategy's boolean result, and a
successful strategy writes the destination file. -/

/-- The three rendering strategies, in cascade order. -/
inductive Strategy where
  | surface
  | wireframe
  | boundingBox
deriving DecidableEq, Repr

/-- The counters initialised to zero in `STLPreviewGenerator.__init__`
(lines 22–24). -/
structure Counters where
  success_count : ℕ
  failure_count : ℕ
  skipped_count : ℕ
deriving DecidableEq, Repr

/-- Per-file outcome of the pipeline. -/
inductive Outcome where
  | success (strat : Strategy)
  | failure
  | skipped
deriving DecidableEq, Repr

/-- Embedding of `STLPreviewGenerator.generate_preview` (lines 180–204), returning the
filesystem and counters after the call, the outcome, and the ordered list of
strategies invoked.  A strategy that returns `True` has written the
destination file (each strategy's image write is its last effectful step
before `return True`). -/
def generate_preview (run : Strategy → Bool) (fs : List String)
    (c : Counters) (output_path : String) :
    List String × Counters × Outcome × List Strategy :=
  if fs.contains output_path then
    (fs, { c with skipped_count := c.skipped_count + 1 }, Outcome.skipped, [])
  else if run Strategy.surface then
    (output_path :: fs, { c with success_count := c.success_count + 1 },
     Outcome.success Strategy.surface, [Strategy.surface])
  else if run Strategy.wireframe then
    (output_path :: fs, { c with success_count := c.success_count + 1 },
     Outcome.success Strategy.wireframe, [Strategy.surface, Strategy.wireframe])
  else if run Strategy.boundingBox then
    (output_path :: fs, { c with success_count := c.success_count + 1 },
     Outcome.success Strategy.boundingBox,
     [Strategy.surface, Strategy.wireframe, Strategy.boundingBox])
  else
    (fs, { c with failure_count := c.failure_count + 1 }, Outcome.failure,
     [Strategy.surface, Strategy.wireframe, Strategy.boundingBox])

/-! ## BatchRunner: destination paths and the batch loop (source lines 218–258)

```
base_name = os.path.splitext(os.path.basename(stl_path))[0]
output_path = os.path.join(output_dir, f"{base_name}.png")
```
Input paths are modelled structurally as directory components plus a final
file name, so `os.path.basename` is the final component.  `os.path.splitext`
follows CPython's `genericpath._splitext`: split at the last dot, unless every
character before that dot is itself a dot (then no extension). -/

/-- The index of the last `'.'` in a file name, if any. -/
def lastDotIdx (s : List Char) : Option ℕ :=
  ((s.enum.filter (fun p => p.2 = '.')).map Prod.fst).getLast?

/-- Embedding of `os.path.splitext(name)[0]` for a bare file name (no separators): drop the
extension starting at the last dot, unless the part before that dot is all
dots (leading-dot files like `.bashrc` keep their name whole). -/
def splitext_root (s : List Char) : List Char :=
  match lastDotIdx s with
  | none => s
  | some i => if (s.take i).any (fun ch => ch ≠ '.') then s.take i else s

/-- Embedding of `posixpath.join(a, b)` for two components. -/
def os_path_join (a b : String) : String :=
  if b.startsWith "/" then b
  else if a = "" ∨ a.endsWith "/" then a ++ b
  else a ++ "/" ++ b

/-- A discovered STL file: the directory components below the input root, and
the file's own name. -/
structure StlPath where
  dirs : List String
  filename : String
deriving DecidableEq, Repr

/-- The destination computed in the batch loop (lines 243–244):
`output_dir` joined with the basename stripped of its extension plus `.png` —
flat, with no trace of `dirs`. -/
def dest (output_dir : String) (p : StlPath) : String :=
  os_path_join output_dir (String.mk (splitext_root p.filename.data) ++ ".png")

/-- The batch loop (lines 242–246): process each file in order, threading the
filesystem and the counters, and record each file's outcome and invoked
strategies. -/
def runJobs (run : StlPath → Strategy → Bool) (output_dir : String) :
    List StlPath → List String → Counters →
    List String × Counters × List (Outcome × List Strategy)
  | [], fs, c => (fs, c, [])
  | p :: rest, fs, c =>
      let r := generate_preview (run p) fs c (dest output_dir p)
      let rr := runJobs run output_dir rest r.1 r.2.1
      (rr.1, rr.2.1, (r.2.2.1, r.2.2.2) :: rr.2.2)

/-- Embedding of `main` (lines 218–258) up to its exit status: if no STL files were found,
return early (exit status 0, lines 230–232); otherwise run the batch with
fresh counters and exit 1 iff `failure_count > 0` (lines 257–258).  Returns
the final filesystem, the final counters, and the exit status. -/
def main_model (run : StlPath → Strategy → Bool) (output_dir : String)
    (stl_files : List StlPath) (fs : List String) :
    List String × Counters × ℕ :=
  if stl_files.isEmpty then (fs, ⟨0, 0, 0⟩, 0)
  else
    let r := runJobs run output_dir stl_files fs ⟨0, 0, 0⟩
    (r.1, r.2.1, if r.2.1.failure_count > 0 then 1 else 0)

/-! ## Shared helper lemmas -/

/-- The strategy body completes iff each of its three steps completes. -/
theorem strategyBody_ok_iff (load compute write : RunResult Unit) :
    strategyBody load compute write = RunResult.ok () ↔
      load = RunResult.ok () ∧ compute = RunResult.ok () ∧
        write = RunResult.ok () := by
  rcases load with _ | e₁ <;> rcases compute with _ | e₂ <;>
    rcases write with _ | e₃ <;> simp [strategyBody, seqStep]

/-! ## Claims -/

/-- C4: the wireframe projection is the pure function
`project(x,y,z) = (x + 0.5*z, y + 0.5*z)`, applied independently to every
vertex (the i-th projected vertex depends only on the i-th input vertex, and
the vertex count is preserved), and it is deterministic. -/
theorem projection_pure_oblique :
    (∀ x y z : ℚ, project x y z = (x + 1/2 * z, y + 1/2 * z)) ∧
    (∀ (vs : List (ℚ × ℚ × ℚ)) (i : ℕ),
      (project_all vs)[i]? = (vs[i]?).map (fun v => project v.1 v.2.1 v.2.2)) ∧
    (∀ vs : List (ℚ × ℚ × ℚ), (project_all vs).length = vs.length) ∧
    (∀ x y z : ℚ, project x y z = project x y z) := by
  refine ⟨fun x y z => ?_, fun vs i => ?_, fun vs => ?_, fun _ _ _ => rfl⟩
  · simp [project, proj_matrix, Prod.ext_iff]
  · simp [project_all]
  · simp [project_all]

/-- C6: in every rendering strategy, a raised `Exception` instance anywhere in
the body is caught and converted to the result `False`; the strategy returns
`True` exactly when every step (load, computation, write) completes; and
whatever propagates out of a strategy is never an `Exception` instance.  The
wireframe and simple strategies share the matplotlib strategy's wrapper
behaviour verbatim. -/
theorem strategies_catch_all_exceptions (load compute write : RunResult Unit) :
    (generate_preview_matplotlib load compute write = RunResult.ok true ↔
      load = RunResult.ok () ∧ compute = RunResult.ok () ∧
        write = RunResult.ok ()) ∧
    (∀ e : PyErr, e.isException = true →
      strategyBody load compute write = RunResult.raised e →
      generate_preview_matplotlib load compute write = RunResult.ok false) ∧
    (∀ e : PyErr,
      generate_preview_matplotlib load compute write = RunResult.raised e →
      e.isException = false) ∧
    generate_preview_wireframe load compute write =
      generate_preview_matplotlib load compute write ∧
    generate_preview_simple load compute write =
      generate_preview_matplotlib load compute write := by
  refine ⟨?_, ?_, ?_, rfl, rfl⟩
  · rw [← strategyBody_ok_iff]
    rcases h : strategyBody load compute write with _ | e
    · simp [generate_preview_matplotlib, h, tryStrategy]
    · simp only [generate_preview_matplotlib, h, tryStrategy]
      split_ifs <;> simp
  · intro e he hb
    simp [generate_preview_matplotlib, hb, tryStrategy, he]
  · intro e hr
    rcases h : strategyBody load compute write with _ | f <;>
      simp only [generate_preview_matplotlib, h, tryStrategy] at hr
    · cases hr
    · by_cases hf : f.isException = true
      · simp [hf] at hr
      · simp [hf] at hr
        subst hr
        simpa using hf

/-- Witness for C6 at a concrete input: a `ValueError` raised by the load step
is converted to the boolean result `False`. -/
theorem strategies_catch_all_exceptions_witness :
    generate_preview_matplotlib (RunResult.raised ⟨true, "ValueError"⟩)
      (RunResult.ok ()) (RunResult.ok ()) = RunResult.ok false :=
  (strategies_catch_all_exceptions _ _ _).2.1 ⟨true, "ValueError"⟩ rfl rfl

/-- C9: a raised object that is a `BaseException` but not an `Exception`
instance (e.g. `KeyboardInterrupt`) is not caught by any strategy's
`except Exception` handler: it propagates out of the strategy unchanged. -/
theorem base_exceptions_propagate (load compute write : RunResult Unit)
    (e : PyErr) (he : e.isException = false)
    (hb : strategyBody load compute write = RunResult.raised e) :
    generate_preview_matplotlib load compute write = RunResult.raised e ∧
    generate_preview_wireframe load compute write = RunResult.raised e ∧
    generate_preview_simple load compute write = RunResult.raised e := by
  simp [generate_preview_matplotlib, generate_preview_wireframe,
    generate_preview_simple, tryStrategy, hb, he]

/-- Witness for C9 at a concrete input: a `KeyboardInterrupt` raised by the
load step propagates out of the matplotlib strategy. -/
theorem base_exceptions_propagate_witness :
    generate_preview_matplotlib (RunResult.raised ⟨false, "KeyboardInterrupt"⟩)
      (RunResult.ok ()) (RunResult.ok ()) =
      RunResult.raised ⟨false, "KeyboardInterrupt"⟩ :=
  (base_exceptions_propagate (RunResult.raised ⟨false, "KeyboardInterrupt"⟩)
    (RunResult.ok ()) (RunResult.ok ()) ⟨false, "KeyboardInterrupt"⟩
    rfl rfl).1

/-- C2: when the destination already exists, the file is skipped: the skipped
counter is incremented by one, the other counters are unchanged, no strategy
is invoked (hence no mesh is loaded), the outcome is `Skipped`, and the
filesystem — in particular the existing destination file — is unchanged. -/
theorem skip_when_dest_exists (run : Strategy → Bool) (fs : List String)
    (c : Counters) (out : String) (h : fs.contains out = true) :
    (generate_preview run fs c out).1 = fs ∧
    (generate_preview run fs c out).2.1.skipped_count = c.skipped_count + 1 ∧
    (generate_preview run fs c out).2.1.success_count = c.success_count ∧
    (generate_preview run fs c out).2.1.failure_count = c.failure_count ∧
    (generate_preview run fs c out).2.2.1 = Outcome.skipped ∧
    (generate_preview run fs c out).2.2.2 = [] := by
  have hm : out ∈ fs := by simpa using h
  simp [generate_preview, hm]

/-- Witness for C2 at a concrete input: with `a.png` already present, the
outcome is `Skipped`, the skipped counter goes from 0 to 1 and no strategy
runs. -/
theorem skip_when_dest_exists_witness :
    (generate_preview (fun _ => true) ["a.png"] ⟨0, 0, 0⟩ "a.png").1 =
        ["a.png"] ∧
    (generate_preview (fun _ => true) ["a.png"] ⟨0, 0, 0⟩
        "a.png").2.1.skipped_count = 0 + 1 ∧
    (generate_preview (fun _ => true) ["a.png"] ⟨0, 0, 0⟩
        "a.png").2.2.2 = [] := by
  obtain ⟨h1, h2, _, _, _, h6⟩ :=
    skip_when_dest_exists (fun _ => true) ["a.png"] ⟨0, 0, 0⟩ "a.png"
      (by decide)
  exact ⟨h1, h2, h6⟩

/-- C1: when the destination does not exist, the strategies are attempted
strictly in the order surface → wireframe → bounding box: the invocation
trace is an initial segment of that sequence, cut at the first success (every
invoked strategy before the last returned `False`), no strategy is invoked
twice, and a `Success` outcome is tagged with the last invoked strategy, which
returned `True`. -/
theorem strategies_in_order (run : Strategy → Bool) (fs : List String)
    (c : Counters) (out : String) (h : fs.contains out = false) :
    (run Strategy.surface = true →
      (generate_preview run fs c out).2.2.2 = [Strategy.surface]) ∧
    (run Strategy.surface = false → run Strategy.wireframe = true →
      (generate_preview run fs c out).2.2.2 =
        [Strategy.surface, Strategy.wireframe]) ∧
    (run Strategy.surface = false → run Strategy.wireframe = false →
      (generate_preview run fs c out).2.2.2 =
        [Strategy.surface, Strategy.wireframe, Strategy.boundingBox]) ∧
    (generate_preview run fs c out).2.2.2 <+:
      [Strategy.surface, Strategy.wireframe, Strategy.boundingBox] ∧
    (generate_preview run fs c out).2.2.2.Nodup ∧
    (∀ s ∈ (generate_preview run fs c out).2.2.2.dropLast, run s = false) ∧
    (∀ s, (generate_preview run fs c out).2.2.1 = Outcome.success s →
      (generate_preview run fs c out).2.2.2.getLast? = some s ∧
        run s = true) := by
  have hm : out ∉ fs := by simpa using h
  cases hs : run Strategy.surface <;> cases hw : run Strategy.wireframe <;>
    cases hb : run Strategy.boundingBox <;>
      simp [generate_preview, hm, hs, hw, hb, List.cons_prefix_cons,
        List.nil_prefix]

/-- Witness for C1 at a concrete input: with the surface strategy failing and
the wireframe strategy succeeding, exactly surface then wireframe are
invoked. -/
theorem strategies_in_order_witness :
    (generate_preview (fun s => decide (s = Strategy.wireframe)) []
        ⟨0, 0, 0⟩ "a.png").2.2.2 =
      [Strategy.surface, Strategy.wireframe] :=
  (strategies_in_order (fun s => decide (s = Strategy.wireframe)) []
    ⟨0, 0, 0⟩ "a.png" rfl).2.1 (by decide) (by decide)

/-- C7: per processed file, exactly one counter is incremented, by exactly
one; no counter decreases; the success counter is incremented iff some
invoked strategy returned `True`; and the failure counter is incremented iff
all three strategies were invoked and returned `False`. -/
theorem counters_per_file (run : Strategy → Bool) (fs : List String)
    (c : Counters) (out : String) :
    ((generate_preview run fs c out).2.1.success_count +
        (generate_preview run fs c out).2.1.failure_count +
        (generate_preview run fs c out).2.1.skipped_count =
      c.success_count + c.failure_count + c.skipped_count + 1) ∧
    (c.success_count ≤ (generate_preview run fs c out).2.1.success_count) ∧
    (c.failure_count ≤ (generate_preview run fs c out).2.1.failure_count) ∧
    (c.skipped_count ≤ (generate_preview run fs c out).2.1.skipped_count) ∧
    ((generate_preview run fs c out).2.1.success_count =
        c.success_count + 1 ↔
      ∃ s ∈ (generate_preview run fs c out).2.2.2, run s = true) ∧
    ((generate_preview run fs c out).2.1.failure_count =
        c.failure_count + 1 ↔
      (generate_preview run fs c out).2.2.2 =
          [Strategy.surface, Strategy.wireframe, Strategy.boundingBox] ∧
        ∀ s ∈ (generate_preview run fs c out).2.2.2, run s = false) := by
  by_cases hm : out ∈ fs
  · simp [generate_preview, hm]
    omega
  · cases hs : run Strategy.surface <;> cases hw : run Strategy.wireframe <;>
      cases hb : run Strategy.boundingBox <;>
        simp [generate_preview, hm, hs, hw, hb] <;> omega

/-- Witness for C7 at a concrete input: a file on which all strategies fail
increments only the failure counter. -/
theorem counters_per_file_witness :
    (generate_preview (fun _ => false) [] ⟨0, 0, 0⟩ "a.png").2.1.failure_count
      = 0 + 1 :=
  (counters_per_file (fun _ => false) [] ⟨0, 0, 0⟩ "a.png").2.2.2.2.2.mpr
    (by decide)

/-- C3: the exit status is 1 iff the final failure count is positive; a run
with zero failures exits 0 (whatever the skipped count); a run that finds no
STL files exits 0; and the exit status is always 0 or 1. -/
theorem exit_code_iff_failures (run : StlPath → Strategy → Bool) (d : String)
    (files : List StlPath) (fs : List String) :
    ((main_model run d files fs).2.2 = 1 ↔
      0 < (main_model run d files fs).2.1.failure_count) ∧
    ((main_model run d files fs).2.1.failure_count = 0 →
      (main_model run d files fs).2.2 = 0) ∧
    (files = [] → (main_model run d files fs).2.2 = 0) ∧
    ((main_model run d files fs).2.2 = 0 ∨
      (main_model run d files fs).2.2 = 1) := by
  by_cases h : files.isEmpty
  · simp [main_model, h]
  · simp only [main_model, h, if_false, Bool.false_eq_true]
    split_ifs with hf
    · simp_all
      omega
    · simp_all

/-- Witness for C3 at a concrete input: an empty file list exits 0. -/
theorem exit_code_iff_failures_witness :
    (main_model (fun _ _ => false) "previews" [] []).2.2 = 0 :=
  (exit_code_iff_failures (fun _ _ => false) "previews" [] []).2.2.1 rfl

/-- Elementwise description of Python slicing `l[::5]`: its `i`-th element is
the `5*i`-th element of `l`. -/
theorem sliceStep5_getElem? (i : ℕ) (l : List α) :
    (sliceStep5 l)[i]? = l[5 * i]? := by
  induction i generalizing l with
  | zero =>
      cases l with
      | nil => simp [sliceStep5]
      | cons a rest => simp [sliceStep5]
  | succ i ih =>
      cases l with
      | nil => simp [sliceStep5]
      | cons a rest =>
          have h5 : 5 * (i + 1) = 4 + 5 * i + 1 := by ring
          rw [h5,
            show sliceStep5 (a :: rest) = a :: sliceStep5 (rest.drop 4) from
              by simp [sliceStep5]]
          simp only [List.getElem?_cons_succ]
          rw [ih, List.getElem?_drop]

/-- C5: the wireframe outline pass draws one closed triangle per face — the
face's three projected vertices followed by a repeat of the first — one for
every face in order; the fill pass draws the faces at indices 0, 5, 10, …
and no others: its `i`-th polygon is exactly face `5*i`. -/
theorem wireframe_outlines_and_fills (vs : List (ℚ × ℚ))
    (faces : List (ℕ × ℕ × ℕ)) (i : ℕ) :
    (wire_outlines vs faces).length = faces.length ∧
    (wire_outlines vs faces)[i]? =
      (faces[i]?).map (fun f =>
        [vget vs f.1, vget vs f.2.1, vget vs f.2.2, vget vs f.1]) ∧
    (wire_fills vs faces)[i]? =
      (faces[5 * i]?).map (fun f =>
        [vget vs f.1, vget vs f.2.1, vget vs f.2.2]) := by
  refine ⟨by simp [wire_outlines], ?_, ?_⟩
  · simp only [wire_outlines, List.getElem?_map]
    cases faces[i]? <;> simp [triangle_closed]
  · simp [wire_fills, sliceStep5_getElem?]

/-- Witness for C5 at a concrete mesh of six identical faces: face 5 is the
second fill, and face 0 is outlined as a closed loop. -/
theorem wireframe_outlines_and_fills_witness :
    (wire_outlines [(0, 0), (1, 0), (0, 1)]
        [(0, 1, 2), (0, 1, 2), (0, 1, 2), (0, 1, 2), (0, 1, 2),
         (1, 2, 0)])[0]? =
      some [(0, 0), (1, 0), (0, 1), (0, 0)] ∧
    (wire_fills [(0, 0), (1, 0), (0, 1)]
        [(0, 1, 2), (0, 1, 2), (0, 1, 2), (0, 1, 2), (0, 1, 2),
         (1, 2, 0)])[1]? =
      some [(1, 0), (0, 1), (0, 0)] := by
  constructor
  · exact (wireframe_outlines_and_fills [(0, 0), (1, 0), (0, 1)]
      [(0, 1, 2), (0, 1, 2), (0, 1, 2), (0, 1, 2), (0, 1, 2),
       (1, 2, 0)] 0).2.1.trans (by norm_num [vget])
  · exact (wireframe_outlines_and_fills [(0, 0), (1, 0), (0, 1)]
      [(0, 1, 2), (0, 1, 2), (0, 1, 2), (0, 1, 2), (0, 1, 2),
       (1, 2, 0)] 1).2.2.trans (by norm_num [vget])

/-- C8 counterexample: on a 512×512 canvas, the loop draws a gradient segment
starting at (462, 50) — not within the gradient's own 30-px extent of the
top-left corner (50, 50) of the rectangle, but right at its top-RIGHT corner
(462, 50).  So the gradient is not drawn only along the top-left corner. -/
theorem gradient_not_only_top_left :
    ∃ s ∈ gradient_segments 512,
      ¬ nearCorner s.x1 s.y1 margin margin ∧
        nearCorner s.x1 s.y1 (512 - margin) margin := by
  refine ⟨⟨462, 50, 463, 50⟩, ?_, by decide, by decide⟩
  simp [gradient_segments, margin]
  exact ⟨0, by omega, Or.inr (by omega)⟩

/-- C8 (amended): every gradient segment lies along the top-left corner
`(margin, margin)` or the top-right corner `(w - margin, margin)` of the inset
rectangle (both endpoints within the gradient's 30-px extent of that corner),
both of those corners do receive segments, and — whenever the canvas is tall
enough for the rectangle to be non-degenerate — no segment lies near either
bottom corner. -/
theorem gradient_top_corners (w h : ℤ) (hh : 131 ≤ h) :
    (∀ s ∈ gradient_segments w,
      (nearCorner s.x1 s.y1 margin margin ∧
        nearCorner s.x2 s.y2 margin margin) ∨
      (nearCorner s.x1 s.y1 (w - margin) margin ∧
        nearCorner s.x2 s.y2 (w - margin) margin)) ∧
    (∃ s ∈ gradient_segments w, nearCorner s.x1 s.y1 margin margin) ∧
    (∃ s ∈ gradient_segments w,
      nearCorner s.x1 s.y1 (w - margin) margin) ∧
    (∀ s ∈ gradient_segments w,
      ¬ nearCorner s.x1 s.y1 margin (h - margin) ∧
      ¬ nearCorner s.x1 s.y1 (w - margin) (h - margin)) := by
  refine ⟨?_, ?_, ?_, ?_⟩
  · intro s hs
    simp only [gradient_segments, List.mem_flatMap, List.mem_range,
      List.mem_cons, List.mem_singleton] at hs
    obtain ⟨o, ho, hseg | hseg | hfalse⟩ := hs
    · subst hseg
      exact Or.inl (by constructor <;> simp [nearCorner, margin] <;> omega)
    · subst hseg
      exact Or.inr (by constructor <;> simp [nearCorner, margin] <;> omega)
    · simp at hfalse
  · refine ⟨⟨margin + 0, margin - 0, margin + 0 + 1, margin - 0⟩, ?_, ?_⟩
    · simp [gradient_segments, List.mem_flatMap]
      exact ⟨0, by omega, Or.inl (by simp)⟩
    · simp [nearCorner, margin]
  · refine ⟨⟨w - margin + 0, margin - 0, w - margin + 0 + 1, margin - 0⟩,
      ?_, ?_⟩
    · simp [gradient_segments, List.mem_flatMap]
      exact ⟨0, by omega, Or.inr (by simp)⟩
    · simp [nearCorner, margin]
  · intro s hs
    simp only [gradient_segments, List.mem_flatMap, List.mem_range,
      List.mem_cons, List.mem_singleton] at hs
    obtain ⟨o, ho, hseg | hseg | hfalse⟩ := hs
    · subst hseg
      constructor <;> simp [nearCorner, margin] <;> omega
    · subst hseg
      constructor <;> simp [nearCorner, margin] <;> omega
    · simp at hfalse

/-- Witness for the amended C8 on a concrete 512×512 canvas: a segment sits
along the top-right corner of the rectangle. -/
theorem gradient_top_corners_witness :
    (131 : ℤ) ≤ 512 ∧
      ∃ s ∈ gradient_segments 512,
        nearCorner s.x1 s.y1 (512 - margin) margin :=
  ⟨by norm_num, (gradient_top_corners 512 512 (by norm_num)).2.2.1⟩

/-! ## Helper lemmas for the batch loop -/

/-- Unfolding `runJobs` on an empty job list. -/
theorem runJobs_nil (run : StlPath → Strategy → Bool) (d : String)
    (fs : List String) (c : Counters) :
    runJobs run d [] fs c = (fs, c, []) := rfl

/-- Unfolding `runJobs` on a job followed by the rest. -/
theorem runJobs_cons (run : StlPath → Strategy → Bool) (d : String)
    (p : StlPath) (rest : List StlPath) (fs : List String) (c : Counters) :
    runJobs run d (p :: rest) fs c =
      ((runJobs run d rest (generate_preview (run p) fs c (dest d p)).1
          (generate_preview (run p) fs c (dest d p)).2.1).1,
       (runJobs run d rest (generate_preview (run p) fs c (dest d p)).1
          (generate_preview (run p) fs c (dest d p)).2.1).2.1,
       ((generate_preview (run p) fs c (dest d p)).2.2.1,
        (generate_preview (run p) fs c (dest d p)).2.2.2) ::
         (runJobs run d rest (generate_preview (run p) fs c (dest d p)).1
            (generate_preview (run p) fs c (dest d p)).2.1).2.2) := rfl

/-- Processing one file never removes an existing file. -/
theorem generate_preview_mono (run : Strategy → Bool) (fs : List String)
    (c : Counters) (out x : String) (hx : x ∈ fs) :
    x ∈ (generate_preview run fs c out).1 := by
  unfold generate_preview
  split_ifs <;> simp [hx]

/-- A `Success` outcome means the destination file exists afterwards. -/
theorem generate_preview_success_writes (run : Strategy → Bool)
    (fs : List String) (c : Counters) (out : String) (s : Strategy)
    (h : (generate_preview run fs c out).2.2.1 = Outcome.success s) :
    out ∈ (generate_preview run fs c out).1 := by
  by_cases hm : out ∈ fs
  · simp [generate_preview, hm] at h
  · cases hs : run Strategy.surface <;>
      cases hw : run Strategy.wireframe <;>
        cases hb : run Strategy.boundingBox <;>
          simp_all [generate_preview, hm, hs, hw, hb]

/-- When the destination is already present, processing skips. -/
theorem generate_preview_of_mem (run : Strategy → Bool) (fs : List String)
    (c : Counters) (out : String) (hm : out ∈ fs) :
    generate_preview run fs c out =
      (fs, { c with skipped_count := c.skipped_count + 1 },
       Outcome.skipped, []) := by
  simp [generate_preview, hm]

/-- Processing one file either leaves the filesystem unchanged or writes
exactly the destination, and it writes only when the destination was
absent. -/
theorem generate_preview_fs_cases (run : Strategy → Bool) (fs : List String)
    (c : Counters) (out : String) :
    (generate_preview run fs c out).1 = fs ∨
      ((generate_preview run fs c out).1 = out :: fs ∧ out ∉ fs) := by
  by_cases hm : out ∈ fs
  · left
    simp [generate_preview, hm]
  · cases hs : run Strategy.surface <;>
      cases hw : run Strategy.wireframe <;>
        cases hb : run Strategy.boundingBox <;>
          simp [generate_preview, hm, hs, hw, hb]

/-- Processing one file introduces at most one copy of any path. -/
theorem generate_preview_count (run : Strategy → Bool) (fs : List String)
    (c : Counters) (out x : String) :
    ((generate_preview run fs c out).1).count x ≤ max (fs.count x) 1 := by
  rcases generate_preview_fs_cases run fs c out with h | ⟨h, hnm⟩
  · rw [h]
    exact le_max_left _ _
  · rw [h]
    rcases eq_or_ne x out with rfl | hne
    · rw [List.count_cons_self, List.count_eq_zero_of_not_mem hnm]
      simp
    · rw [List.count_cons_of_ne hne]
      exact le_max_left _ _

/-- The batch loop `runJobs` never removes an existing file. -/
theorem runJobs_mono (run : StlPath → Strategy → Bool) (d : String) :
    ∀ (jobs : List StlPath) (fs : List String) (c : Counters) (x : String),
      x ∈ fs → x ∈ (runJobs run d jobs fs c).1 := by
  intro jobs
  induction jobs with
  | nil => intro fs c x hx; simpa [runJobs_nil] using hx
  | cons p rest ih =>
      intro fs c x hx
      rw [runJobs_cons]
      exact ih _ _ x (generate_preview_mono _ _ _ _ _ hx)

/-- The batch loop `runJobs` keeps at most one copy of any path that was not duplicated at
the start. -/
theorem runJobs_count (run : StlPath → Strategy → Bool) (d : String) :
    ∀ (jobs : List StlPath) (fs : List String) (c : Counters) (x : String),
      ((runJobs run d jobs fs c).1).count x ≤ max (fs.count x) 1 := by
  intro jobs
  induction jobs with
  | nil => intro fs c x; simp [runJobs_nil]
  | cons p rest ih =>
      intro fs c x
      rw [runJobs_cons]
      refine le_trans (ih _ _ x) ?_
      have h1 := generate_preview_count (run p) fs c (dest d p) x
      simp only [max_le_iff]
      exact ⟨le_trans h1 (by simp), by simp⟩

/-- Once a path is on disk, every later job whose destination is that path is
skipped with no strategy invoked. -/
theorem runJobs_skips (run : StlPath → Strategy → Bool) (d : String) :
    ∀ (jobs : List StlPath) (fs : List String) (c : Counters) (x : String)
      (k : ℕ) (p : StlPath),
      x ∈ fs → jobs[k]? = some p → dest d p = x →
      (runJobs run d jobs fs c).2.2[k]? =
        some (Outcome.skipped, ([] : List Strategy)) := by
  intro jobs
  induction jobs with
  | nil => intro fs c x k p _ hk _; simp at hk
  | cons p0 rest ih =>
      intro fs c x k p hx hk hdest
      cases k with
      | zero =>
          obtain rfl : p0 = p := by simpa using hk
          rw [runJobs_cons, generate_preview_of_mem _ _ _ _ (hdest ▸ hx)]
          simp
      | succ k =>
          rw [runJobs_cons]
          simp only [List.getElem?_cons_succ] at hk ⊢
          exact ih _ _ x k p (generate_preview_mono _ _ _ _ _ hx) hk hdest

/-- After an earlier job has succeeded, any later job with the same
destination is skipped. -/
theorem runJobs_success_then_skip (run : StlPath → Strategy → Bool)
    (d : String) :
    ∀ (jobs : List StlPath) (fs : List String) (c : Counters) (i j : ℕ)
      (p q : StlPath) (s : Strategy) (t : List Strategy),
      i < j → jobs[i]? = some p → jobs[j]? = some q →
      dest d p = dest d q →
      (runJobs run d jobs fs c).2.2[i]? = some (Outcome.success s, t) →
      (runJobs run d jobs fs c).2.2[j]? =
        some (Outcome.skipped, ([] : List Strategy)) := by
  intro jobs
  induction jobs with
  | nil => intro fs c i j p q s t _ hp _ _ _; simp at hp
  | cons p0 rest ih =>
      intro fs c i j p q s t hij hp hq hdest hsucc
      obtain ⟨j₁, rfl⟩ : ∃ j₁, j = j₁ + 1 := ⟨j - 1, by omega⟩
      cases i with
      | zero =>
          obtain rfl : p0 = p := by simpa using hp
          rw [runJobs_cons] at hsucc ⊢
          simp only [List.getElem?_cons_zero, Option.some.injEq,
            Prod.mk.injEq] at hsucc
          simp only [List.getElem?_cons_succ] at hq ⊢
          have hw : dest d p0 ∈
              (generate_preview (run p0) fs c (dest d p0)).1 :=
            generate_preview_success_writes _ _ _ _ s hsucc.1
          exact runJobs_skips run d rest _ _ (dest d p0) j₁ q hw hq hdest.symm
      | succ i₁ =>
          rw [runJobs_cons] at hsucc ⊢
          simp only [List.getElem?_cons_succ] at hp hq hsucc ⊢
          exact ih _ _ i₁ j₁ p q s t (by omega) hp hq hdest hsucc

/-- C10: destinations are computed flatly from the basename alone, so two
discovered files in different subdirectories with the same file name map to
the identical destination; once the earlier of them has produced an image,
every later one is recorded as `Skipped` with no strategy invoked (no mesh
rendered), and the run leaves at most one copy of that destination on disk
when it was not there at the start. -/
theorem duplicate_basenames_collapse (run : StlPath → Strategy → Bool)
    (d : String) (jobs : List StlPath) (fs : List String) (c : Counters)
    (i j : ℕ) (p q : StlPath) (s : Strategy) (t : List Strategy)
    (hij : i < j) (hp : jobs[i]? = some p) (hq : jobs[j]? = some q)
    (hname : p.filename = q.filename) :
    dest d p = dest d q ∧
    ((runJobs run d jobs fs c).2.2[i]? = some (Outcome.success s, t) →
      (runJobs run d jobs fs c).2.2[j]? =
        some (Outcome.skipped, ([] : List Strategy))) ∧
    (fs.count (dest d p) = 0 →
      ((runJobs run d jobs fs c).1).count (dest d p) ≤ 1) := by
  have hdest : dest d p = dest d q := by
    simp [dest, hname]
  refine ⟨hdest, ?_, ?_⟩
  · intro hsucc
    exact runJobs_success_then_skip run d jobs fs c i j p q s t hij hp hq
      hdest hsucc
  · intro h0
    have := runJobs_count run d jobs fs c (dest d p)
    rw [h0] at this
    simpa using this

/-- Witness for C10 at a concrete batch: `models/a.stl` and `extra/sub/a.stl`
share the destination; the first succeeds, the second is skipped with no
strategy invoked. -/
theorem duplicate_basenames_collapse_witness :
    dest "previews" ⟨["models"], "a.stl"⟩ =
        dest "previews" ⟨["extra", "sub"], "a.stl"⟩ ∧
    (runJobs (fun _ _ => true) "previews"
        [⟨["models"], "a.stl"⟩, ⟨["extra", "sub"], "a.stl"⟩] []
        ⟨0, 0, 0⟩).2.2[1]? =
      some (Outcome.skipped, ([] : List Strategy)) := by
  obtain ⟨h1, h2, _⟩ := duplicate_basenames_collapse (fun _ _ => true)
    "previews" [⟨["models"], "a.stl"⟩, ⟨["extra", "sub"], "a.stl"⟩] []
    ⟨0, 0, 0⟩ 0 1 ⟨["models"], "a.stl"⟩ ⟨["extra", "sub"], "a.stl"⟩
    Strategy.surface [Strategy.surface] (by omega) rfl rfl rfl
  refine ⟨h1, h2 ?_⟩
  rw [runJobs_cons]
  simp [generate_preview]

end STLPreview
